import Mathlib

/-!
Verification development for the rabaul-hotel content front-end.

This file shallowly embeds the data-fetch/normalize layer, the booking
form logic and the allow-list proxy gate of the repository in Lean 4 and
proves properties about them. JavaScript strings are modelled as Lean
strings; JavaScript `undefined`-able values are modelled as `Option`;
JavaScript truthiness on strings (the empty string is falsy) and on
numbers (zero is falsy) is made explicit at each use site; dates handled
by date-fns (`isBefore`, `addDays`) are modelled as integer day numbers.
-/

namespace RabaulHotel

/-- JavaScript string read of a possibly-undefined value: `undefined`
behaves as the empty string in the truthiness chains modelled below. -/
def jsStr (o : Option String) : String := o.getD ""

/-- JavaScript `a || b` on strings: the empty string is falsy. -/
def jsOrStr (a b : String) : String := if a = "" then b else a

/-- JavaScript `String.prototype.split` with a one-character separator,
on the character list of the string. `"".split(sep)` is `[""]`. -/
def jsSplitChar (sep : Char) : List Char → List (List Char)
  | [] => [[]]
  | c :: cs =>
    if c = sep then [] :: jsSplitChar sep cs
    else
      match jsSplitChar sep cs with
      | [] => [[c]]
      | p :: ps => (c :: p) :: ps

/-- JavaScript `s.split(sep)` for a one-character separator. -/
def jsSplit (s : String) (sep : Char) : List String :=
  (jsSplitChar sep s.data).map (fun l => String.mk l)

/-! ## Environment configuration

`process.env.NEXT_PUBLIC_WORDPRESS_URL`, `process.env.NEXT_PUBLIC_WORDPRESS_API_URL`
and `process.env.NODE_ENV`, as read by the three modules. -/

structure Env where
  nextPublicWordpressUrl : Option String
  nextPublicWordpressApiUrl : Option String
  nodeEnv : String
deriving DecidableEq

/-- `src/lib/wordpress.ts` lines 4-6: `WORDPRESS_API_URL =
process.env.NEXT_PUBLIC_WORDPRESS_URL || process.env.NEXT_PUBLIC_WORDPRESS_API_URL || ""`.
This module-level resolution is a total function into `String`; it raises
nothing and falls back to the empty-string sentinel. -/
def wordpressApiUrlWp (e : Env) : String :=
  jsOrStr (jsStr e.nextPublicWordpressUrl) (jsOrStr (jsStr e.nextPublicWordpressApiUrl) "")

/-- The two-step fallback `NEXT_PUBLIC_WORDPRESS_URL || NEXT_PUBLIC_WORDPRESS_API_URL`
as it appears in the api module (`lib/api`) and in the proxy route.
A falsy (unset or empty) result is the empty string. -/
def wpBaseUrl (e : Env) : String :=
  jsOrStr (jsStr e.nextPublicWordpressUrl) (jsStr e.nextPublicWordpressApiUrl)

/-- Error message thrown by the api module when the base URL is unset
outside production. -/
def wpUrlMissingMsg : String :=
  "WordPress API URL is not defined. Please set NEXT_PUBLIC_WORDPRESS_URL or NEXT_PUBLIC_WORDPRESS_API_URL in your environment variables."

/-- Outcome of loading the api module: either it completes and exposes
`API_BASE_URL`, or its top-level code throws. -/
inductive ModuleInit where
  | ok (apiBaseUrl : String)
  | thrown (msg : String)
deriving DecidableEq

/-- Module-level code of the api module (`lib/api`, lines 107-121):
resolves `WORDPRESS_API_URL` by the primary-then-legacy fallback; if the
result is falsy it throws outside production (`NODE_ENV !== "production"`)
and merely logs in production; `API_BASE_URL` is
`WORDPRESS_API_URL + "/wp-json/wp/v2"` when set and `""` otherwise. -/
def initApiModule (e : Env) : ModuleInit :=
  let u := wpBaseUrl e
  if u = "" then
    if e.nodeEnv ≠ "production" then ModuleInit.thrown wpUrlMissingMsg
    else ModuleInit.ok ""
  else ModuleInit.ok (u ++ "/wp-json/wp/v2")

/-! ## Rate resolution (BookingForm, lines 586-589) -/

/-- JavaScript `x.startsWith("K")` on the character list of `x`. -/
def startsWithK : List Char → Bool
  | 'K' :: _ => true
  | _ => false

/-- `room.room_rates || (room.acf?.price_per_night ? "K" + p : "K0")`:
the rate fallback chain. JavaScript number truthiness makes a zero
`price_per_night` fall through to the `"K0"` sentinel. -/
def roomRateValue (roomRates : Option String) (pricePerNight : Option Nat) : String :=
  jsOrStr (jsStr roomRates)
    (match pricePerNight with
     | some p => if p = 0 then "K0" else "K" ++ toString p
     | none => "K0")

/-- The prefix guard `rateValue.toString().startsWith("K") ? rateValue :
"K" + rateValue` (BookingForm, line 589). -/
def resolveRate (x : String) : String :=
  if startsWithK x.data then x else "K" ++ x

/-! ## Gallery normalization (`getNormalizedRooms` in the room-types
section component) -/

/-- A gallery entry. The TypeScript `GalleryItem` is an object with a
required `url` field plus arbitrary further fields; only `url` is
relevant to the logic modelled here (the runtime guard in the source is
membership of the key `url`, which every `GalleryItem` has). -/
structure GalleryItem where
  url : String
deriving DecidableEq

/-- The source shape of `acf.gallery`: `GalleryItem[] | GalleryItem |
undefined` in the TypeScript declaration. -/
inductive GalleryField where
  | absent
  | single (g : GalleryItem)
  | list (l : List GalleryItem)
deriving DecidableEq

/-- The gallery branch of `getNormalizedRooms`: an array is spread into
the result, a bare object carrying a `url` key is wrapped as a
singleton, anything else yields the empty list. -/
def normalizeGalleryVal : GalleryField → List GalleryItem
  | GalleryField.absent => []
  | GalleryField.single g => [g]
  | GalleryField.list l => l

/-- The custom-fields mapping of a room as far as gallery normalization
observes it. Other fields are spread through unchanged by the source and
are omitted. -/
structure RoomACF where
  gallery : GalleryField
deriving DecidableEq

/-- A room record as consumed by `getNormalizedRooms`. -/
structure RoomRec where
  id : Nat
  acf : Option RoomACF
deriving DecidableEq

/-- The per-room body of `getNormalizedRooms`: a room without custom
fields is returned unchanged; otherwise its gallery is replaced by the
normalized list. -/
def normalizeRoom (room : RoomRec) : RoomRec :=
  match room.acf with
  | none => room
  | some a => { room with acf := some { a with gallery := GalleryField.list (normalizeGalleryVal a.gallery) } }

/-- `getNormalizedRooms` (room-types section component, lines 60-83),
restricted to its array branch: the guard returning `[]` for a
non-array argument is subsumed by the typed `List` input. -/
def getNormalizedRooms (roomList : List RoomRec) : List RoomRec :=
  roomList.map normalizeRoom

/-! ## Rooms accessor `getRooms` (api module, lines 171-216) -/

/-- A rendered rich-text field (`{ rendered: string }`). -/
structure RenderedText where
  rendered : String
deriving DecidableEq

/-- The remote content record `WPPost`, with the fields the embedded
logic reads. Optional chaining through `acf` and the optionality of
`price_per_night` collapse to one `Option`. -/
structure WPPost where
  id : Nat
  slug : String
  title : Option RenderedText
  featured_title : Option String
  room_rates : Option String
  price_per_night : Option Nat
deriving DecidableEq

/-- The observable outcome of the `fetch` call inside `getRooms`: the
network layer either fails outright or delivers a response with an `ok`
flag, a status and a body text. -/
inductive FetchOutcome where
  | netError
  | response (ok : Bool) (status : Nat) (body : String)
deriving DecidableEq

/-- `getRooms` (api module): non-`ok` responses throw into the
surrounding catch, an empty body short-circuits to `[]`, a body that
fails to parse throws into the catch, and the catch returns `[]`; only a
parseable non-empty body of an `ok` response yields its rooms.
`JSON.parse` composed with the expected-shape reading is abstracted as
the `parseRooms` argument, `none` meaning a parse failure. -/
def getRooms (parseRooms : String → Option (List WPPost)) : FetchOutcome → List WPPost
  | FetchOutcome.netError => []
  | FetchOutcome.response ok _ body =>
    if ok = false then []
    else if body = "" then []
    else
      match parseRooms body with
      | none => []
      | some rooms => rooms

/-! ## Display-name resolution (BookingForm, lines 580-584) -/

/-- JavaScript `w.charAt(0).toUpperCase() + w.slice(1)` on a character
list: the first character is upper-cased, the rest kept. On the empty
string both halves are empty. -/
def jsCapitalize : List Char → List Char
  | [] => []
  | c :: cs => c.toUpper :: cs

/-- JavaScript `parts.join(" ")` on character lists. -/
def joinSpace : List (List Char) → List Char
  | [] => []
  | [x] => x
  | x :: y :: xs => x ++ ' ' :: joinSpace (y :: xs)

/-- `slug.split("-").map(w => w.charAt(0).toUpperCase() + w.slice(1)).join(" ")`:
the slug title-cased. -/
def titleCaseSlug (s : String) : String :=
  String.mk (joinSpace ((jsSplitChar '-' s.data).map jsCapitalize))

/-- The `roomName` fallback chain (BookingForm, lines 581-584):
`room.title?.rendered || room.featured_title || (room.slug ? titleCased :
"") || "Room " + room.id`. -/
def roomName (room : WPPost) : String :=
  jsOrStr (jsStr (room.title.map RenderedText.rendered))
    (jsOrStr (jsStr room.featured_title)
      (jsOrStr (if room.slug = "" then "" else titleCaseSlug room.slug)
        ("Room " ++ toString room.id)))

/-! ## Booking form state (BookingForm) -/

/-- date-fns `isBefore` on dates modelled as integer day numbers. -/
def isBefore (a b : Int) : Bool := decide (a < b)

/-- date-fns `addDays`. -/
def addDays (d n : Int) : Int := d + n

/-- The `errors` record of the booking form. `none` is an unset key;
the form clears an error by writing the empty string, which is a set
key holding a falsy value. -/
structure BookingErrors where
  checkIn : Option String
  checkOut : Option String
  roomType : Option String
  adults : Option String
deriving DecidableEq

/-- The `formData` state of the booking form plus its `errors` state.
`roomType` holds the selected slug or the `"select"` sentinel. -/
structure BookingFormState where
  checkIn : Option Int
  checkOut : Option Int
  roomType : String
  adults : Int
  children : Int
  errors : BookingErrors
deriving DecidableEq

/-- The check-out auto-correction effect (BookingForm, lines 447-452):
when both dates are set and `isBefore(checkOut, checkIn)`, check-out is
moved to `addDays(checkIn, 1)`; otherwise the state is unchanged. The
effect re-runs whenever `checkIn` changes. -/
def checkOutAutoCorrect (s : BookingFormState) : BookingFormState :=
  match s.checkIn, s.checkOut with
  | some ci, some co =>
    if isBefore co ci then { s with checkOut := some (addDays ci 1) } else s
  | _, _ => s

/-- Picking a check-in date (BookingForm, lines 485-491 followed by the
effect of lines 447-452): sets `checkIn`, clears its error with the
empty string, then the auto-correction effect runs. -/
def pickCheckIn (s : BookingFormState) (d : Int) : BookingFormState :=
  checkOutAutoCorrect { s with checkIn := some d, errors := { s.errors with checkIn := some "" } }

/-- `validateForm` (BookingForm, lines 416-429) as the fresh `newErrors`
record it builds: a missing date is required; with both dates set,
`isBefore(checkOut, checkIn)` overwrites the check-out error; a falsy or
sentinel room selection and an adult count below one are rejected. -/
def validateFormErrors (s : BookingFormState) : BookingErrors :=
  { checkIn := if s.checkIn = none then some "Check-in date is required" else none
    checkOut :=
      match s.checkIn, s.checkOut with
      | _, none => some "Check-out date is required"
      | some ci, some co =>
        if isBefore co ci then some "Check-out date must be after check-in date" else none
      | none, some _ => none
    roomType :=
      if s.roomType = "" ∨ s.roomType = "select" then some "Please select a room type" else none
    adults := if s.adults < 1 then some "At least one adult is required" else none }

/-- `validateForm` returns true when `Object.keys(newErrors).length` is
zero, i.e. no error key was assigned. -/
def validateForm (s : BookingFormState) : Bool :=
  decide (validateFormErrors s = { checkIn := none, checkOut := none, roomType := none, adults := none })

/-! ## Image URL resolution (`getImageUrl` in the room-types section
component, lines 106-134) -/

/-- One size variant of an embedded media item. -/
structure MediaSize where
  source_url : String
deriving DecidableEq

/-- The named size variants read by `getImageUrl`, each optional. -/
structure MediaSizes where
  large : Option MediaSize
  medium_large : Option MediaSize
  medium : Option MediaSize
  thumbnail : Option MediaSize
deriving DecidableEq

/-- `media_details` of an embedded media item. -/
structure MediaDetails where
  sizes : Option MediaSizes
deriving DecidableEq

/-- An embedded featured-media item: a required raw `source_url` and
optional `media_details`. -/
structure FeaturedMedia where
  source_url : String
  media_details : Option MediaDetails
deriving DecidableEq

/-- The `better_featured_image` field. -/
structure BetterFeaturedImage where
  source_url : String
deriving DecidableEq

/-- A room record as read by `getImageUrl`. The two optional levels of
`room._embedded?.["wp:featuredmedia"]` collapse to one `Option` around
the media list, since both absences behave identically. -/
structure Room where
  id : Nat
  better_featured_image : Option BetterFeaturedImage
  embedded_featuredmedia : Option (List FeaturedMedia)
deriving DecidableEq

/-- The truthiness guard `x?.source_url` on an optional media size:
available only when present with a non-empty URL. -/
def sizeUrl (o : Option MediaSize) : Option String :=
  o.bind (fun s => if s.source_url = "" then none else some s.source_url)

/-- The local default placeholder path. -/
def defaultImage : String := "/images/rooms/default-room.png"

/-- The `if (sizes)` block of `getImageUrl` (lines 121-126): try
`large`, `medium_large`, `medium`, `thumbnail` in order, each early
return guarded by truthiness of its `source_url`; `none` when the block
returns nothing. -/
def getImageUrlSizes (sz : MediaSizes) : Option String :=
  match sizeUrl sz.large with
  | some u => some u
  | none =>
    match sizeUrl sz.medium_large with
    | some u => some u
    | none =>
      match sizeUrl sz.medium with
      | some u => some u
      | none => sizeUrl sz.thumbnail

/-- The suffix of `getImageUrl` from line 116 on: the first embedded
media item or the default if there is none; then its size block, the
raw `source_url` truthiness guard, and the default. -/
def getImageUrlEmbedded (emb : Option (List FeaturedMedia)) : String :=
  match emb.bind List.head? with
  | none => defaultImage
  | some fm =>
    match (fm.media_details.bind MediaDetails.sizes).bind getImageUrlSizes with
    | some u => u
    | none => if fm.source_url = "" then defaultImage else fm.source_url

/-- `getImageUrl` (lines 106-134): try
`better_featured_image?.source_url` first, then fall through to the
embedded-media suffix. Each early `return` of the source is one arm of
the match chain. -/
def getImageUrl (room : Room) : String :=
  match room.better_featured_image.bind
      (fun b => if b.source_url = "" then none else some b.source_url) with
  | some u => u
  | none => getImageUrlEmbedded room.embedded_featuredmedia

/-- Modelled from the spec wording of image resolution, for comparison
with `getImageUrl`: the ordered candidate list better-featured-image,
large, medium-large, medium, thumbnail, raw source URL, where a
candidate is available when present with a non-empty URL. -/
def imageCandidates (room : Room) : List (Option String) :=
  let fm := room.embedded_featuredmedia.bind List.head?
  let sz := fm.bind (fun m => m.media_details.bind MediaDetails.sizes)
  [room.better_featured_image.bind
      (fun b => if b.source_url = "" then none else some b.source_url),
   sz.bind (fun x => sizeUrl x.large),
   sz.bind (fun x => sizeUrl x.medium_large),
   sz.bind (fun x => sizeUrl x.medium),
   sz.bind (fun x => sizeUrl x.thumbnail),
   fm.bind (fun m => if m.source_url = "" then none else some m.source_url)]

/-- Modelled from the spec wording: first available candidate wins, the
default closes the list. -/
def firstAvailable : List (Option String) → String → String
  | [], d => d
  | none :: rest, d => firstAvailable rest d
  | some u :: _, _ => u

/-! ## Allow-list proxy gate (`GET` route handler) -/

/-- `ALLOWED_PATHS` of the proxy route. -/
def ALLOWED_PATHS : List String := ["posts", "pages", "media", "categories", "tags"]

/-- `allowedParams` of the proxy route. -/
def allowedParams : List String := ["per_page", "page", "search", "slug", "include", "_embed"]

/-- `URLSearchParams.get`: the value of the first entry with the given
name, over the inbound entry list in order. -/
def searchParamsGet (ps : List (String × String)) (k : String) : Option String :=
  (ps.find? (fun p => p.1 == k)).map (fun p => p.2)

/-- `params[key] = value` on a JavaScript object modelled as an
association list in key-insertion order: an existing key keeps its
position and takes the new value, a new key is appended. -/
def addParam (ps : List (String × String)) (k v : String) : List (String × String) :=
  if ps.any (fun p => p.1 == k) then
    ps.map (fun p => if p.1 == k then (k, v) else p)
  else ps ++ [(k, v)]

/-- The parameter filter loop of the proxy route (lines 71-76): every
inbound entry whose name is neither `path` nor outside `allowedParams`
is written into the `params` object. -/
def filterParamsAux : List (String × String) → List (String × String) → List (String × String)
  | acc, [] => acc
  | acc, (k, v) :: rest =>
    if k ≠ "path" ∧ allowedParams.contains k then filterParamsAux (addParam acc k v) rest
    else filterParamsAux acc rest

/-- The `params` object the proxy forwards, built from the inbound
query entries. -/
def filterParams (req : List (String × String)) : List (String × String) :=
  filterParamsAux [] req

/-- The last value an inbound entry list gives to a name; this is what
the object write loop leaves in `params[k]`. -/
def lastVal : List (String × String) → String → Option String
  | [], _ => none
  | (k, v) :: rest, q =>
    match lastVal rest q with
    | some w => some w
    | none => if k = q then some v else none

/-- The upstream request the proxy issues, structured as the base URL,
the verbatim `path` value spliced into
`base ++ "/wp-json/wp/v2/" ++ path`, and the forwarded parameters. -/
structure ForwardRequest where
  base : String
  path : String
  params : List (String × String)
deriving DecidableEq

/-- The observable outcome of the proxy handler up to the upstream
fetch: a 400 JSON error, the 500 misconfiguration JSON error, or the
forwarded upstream request. -/
inductive ProxyResult where
  | clientError (status : Nat) (error : String)
  | serverError (status : Nat) (error : String)
  | forward (req : ForwardRequest)
deriving DecidableEq

/-- The proxy `GET` handler (route file, lines 38-113) up to the
upstream fetch: a falsy `path` value (absent or empty) is the
missing-parameter rejection; the path is split on `/` and entries
filtered by `Boolean`, and a missing or non-allow-listed first segment
is the invalid-path rejection; an unresolvable base URL is the 500
rejection; otherwise the request is forwarded with the filtered
parameters and the verbatim path. -/
def proxyGET (e : Env) (req : List (String × String)) : ProxyResult :=
  match searchParamsGet req "path" with
  | none => ProxyResult.clientError 400 "Missing path parameter"
  | some path =>
    if path = "" then ProxyResult.clientError 400 "Missing path parameter"
    else
      let pathSegments := (jsSplit path '/').filter (fun s => s != "")
      match pathSegments.head? with
      | none => ProxyResult.clientError 400 "Invalid path parameter"
      | some basePath =>
        if ALLOWED_PATHS.contains basePath then
          let params := filterParams req
          let u := wpBaseUrl e
          if u = "" then ProxyResult.serverError 500 "Internal server error"
          else ProxyResult.forward { base := u, path := path, params := params }
        else ProxyResult.clientError 400 "Invalid path parameter"

/-! ## Helper lemmas -/

/-- A `jsOrStr` chain whose right alternative is non-empty is non-empty. -/
theorem jsOrStr_ne_empty (a b : String) (hb : b ≠ "") : jsOrStr a b ≠ "" := by
  unfold jsOrStr
  split
  · exact hb
  · assumption

/-- The synthetic room label is never the empty string. -/
theorem roomLabel_ne_empty (n : Nat) : ("Room " ++ toString n) ≠ "" := by
  intro h
  have hdata := congrArg String.data h
  rw [String.data_append] at hdata
  have hm : "Room ".data = ['R', 'o', 'o', 'm', ' '] := rfl
  rw [hm] at hdata
  simp at hdata

/-- `jsSplitChar` never returns the empty list of parts. -/
theorem jsSplitChar_ne_nil (sep : Char) (l : List Char) : jsSplitChar sep l ≠ [] := by
  cases l with
  | nil => simp [jsSplitChar]
  | cons c cs =>
    unfold jsSplitChar
    by_cases h : c = sep
    · simp [h]
    · simp only [if_neg h]
      cases hs : jsSplitChar sep cs <;> simp

/-- Capitalizing the parts of a split of a non-empty character list and
joining them with spaces yields a non-empty character list. -/
theorem joinSpace_caps_split_ne_nil (sep : Char) (l : List Char) (h : l ≠ []) :
    joinSpace ((jsSplitChar sep l).map jsCapitalize) ≠ [] := by
  cases l with
  | nil => exact absurd rfl h
  | cons c cs =>
    unfold jsSplitChar
    by_cases hc : c = sep
    · simp only [if_pos hc]
      have hne := jsSplitChar_ne_nil sep cs
      cases hs : jsSplitChar sep cs with
      | nil => exact absurd hs hne
      | cons p ps => simp [joinSpace, jsCapitalize]
    · simp only [if_neg hc]
      have hne := jsSplitChar_ne_nil sep cs
      cases hs : jsSplitChar sep cs with
      | nil => exact absurd hs hne
      | cons p ps =>
        cases ps with
        | nil => simp [joinSpace, jsCapitalize]
        | cons p2 ps2 => simp [joinSpace, jsCapitalize]

/-- Title-casing a non-empty slug yields a non-empty string. -/
theorem titleCaseSlug_ne_empty (s : String) (h : s ≠ "") : titleCaseSlug s ≠ "" := by
  intro he
  have hd : s.data ≠ [] := by
    intro hnil
    apply h
    cases s
    simp_all
  have := congrArg String.data he
  exact joinSpace_caps_split_ne_nil '-' s.data hd this

/-! ## Claim theorems -/

/-- Claim C2: gallery normalization always produces a list; an absent
gallery yields the empty list, a bare object yields the singleton list
holding it, a list input is returned unchanged, and after
`getNormalizedRooms` every room that carries custom fields carries a
list-shaped gallery, regardless of the source shape. -/
theorem c2_gallery_normalization :
    (normalizeGalleryVal GalleryField.absent = [])
  ∧ (∀ g, normalizeGalleryVal (GalleryField.single g) = [g])
  ∧ (∀ l, normalizeGalleryVal (GalleryField.list l) = l)
  ∧ (∀ rooms r, r ∈ getNormalizedRooms rooms → ∀ a, r.acf = some a →
      ∃ l, a.gallery = GalleryField.list l) := by
  refine ⟨rfl, fun g => rfl, fun l => rfl, ?_⟩
  intro rooms r hr a ha
  simp only [getNormalizedRooms, List.mem_map] at hr
  obtain ⟨r0, _, rfl⟩ := hr
  unfold normalizeRoom at ha
  cases h : r0.acf with
  | none => rw [h] at ha; rw [h] at ha; exact absurd ha (by simp)
  | some a0 =>
    rw [h] at ha
    simp at ha
    exact ⟨normalizeGalleryVal a0.gallery, by rw [← ha]⟩

/-- Witness for C2 at a concrete room whose gallery arrives as a bare
object. -/
theorem c2_gallery_normalization_witness :
    ∃ l, (RoomACF.mk (GalleryField.list [GalleryItem.mk "u"])).gallery = GalleryField.list l :=
  c2_gallery_normalization.2.2.2
    [RoomRec.mk 1 (some (RoomACF.mk (GalleryField.single (GalleryItem.mk "u"))))]
    (RoomRec.mk 1 (some (RoomACF.mk (GalleryField.list [GalleryItem.mk "u"]))))
    (by decide) (RoomACF.mk (GalleryField.list [GalleryItem.mk "u"])) rfl

/-- Claim C9: the rate prefix guard leaves a string already starting
with the currency prefix unmodified, and resolving a rate twice equals
resolving it once. -/
theorem c9_rate_idempotent :
    (∀ x : String, startsWithK x.data = true → resolveRate x = x)
  ∧ (∀ x : String, resolveRate (resolveRate x) = resolveRate x) := by
  constructor
  · intro x h
    simp [resolveRate, h]
  · intro x
    unfold resolveRate
    cases h : startsWithK x.data with
    | true => simp [h]
    | false =>
      simp only [h, Bool.false_eq_true, if_false]
      have hk : startsWithK ("K" ++ x).data = true := by
        rw [String.data_append]
        rfl
      rw [hk]
      simp

/-- Witness for C9 at the concrete prefixed rate string `"K150"`. -/
theorem c9_rate_idempotent_witness :
    resolveRate "K150" = "K150" ∧ resolveRate (resolveRate "150") = resolveRate "150" :=
  ⟨c9_rate_idempotent.1 "K150" (by decide), c9_rate_idempotent.2 "150"⟩

/-- Claim C6: `getRooms` returns the empty list on every failure mode:
a network error, a non-2xx (non-ok) response, an empty response body,
and a body that fails to parse. -/
theorem c6_rooms_degrade_to_empty (parseRooms : String → Option (List WPPost)) :
    (getRooms parseRooms FetchOutcome.netError = [])
  ∧ (∀ st body, getRooms parseRooms (FetchOutcome.response false st body) = [])
  ∧ (∀ ok st, getRooms parseRooms (FetchOutcome.response ok st "") = [])
  ∧ (∀ ok st body, parseRooms body = none →
      getRooms parseRooms (FetchOutcome.response ok st body) = []) := by
  refine ⟨rfl, fun st body => rfl, ?_, ?_⟩
  · intro ok st
    cases ok <;> simp [getRooms]
  · intro ok st body hp
    cases ok with
    | false => rfl
    | true =>
      by_cases hb : body = ""
      · simp [getRooms, hb]
      · simp [getRooms, hb, hp]

/-- Witness for C6 at a concrete malformed body under a parse function
that rejects it. -/
theorem c6_rooms_degrade_to_empty_witness :
    getRooms (fun _ => none) (FetchOutcome.response true 200 "not json") = [] :=
  (c6_rooms_degrade_to_empty (fun _ => none)).2.2.2 true 200 "not json" rfl

/-- Counterexample to claim C3: with both environment variables unset
and a non-production execution mode, loading the api module throws, so
the resolution step does raise an error for this environment. -/
theorem c3_counterexample :
    initApiModule
        { nextPublicWordpressUrl := none, nextPublicWordpressApiUrl := none,
          nodeEnv := "development" }
      = ModuleInit.thrown wpUrlMissingMsg := by
  decide

/-- Claim C3 as amended: both modules resolve primary variable first,
then the legacy variable, then the unset sentinel; the wordpress-module
resolution never raises (it is a total function into strings), while
the api-module resolution throws exactly when the resolved value is
falsy outside production, and defers absence to the caller only in
production. -/
theorem c3_config_resolution_amended (e : Env) :
    (jsStr e.nextPublicWordpressUrl ≠ "" →
        wordpressApiUrlWp e = jsStr e.nextPublicWordpressUrl
      ∧ initApiModule e = ModuleInit.ok (jsStr e.nextPublicWordpressUrl ++ "/wp-json/wp/v2"))
  ∧ (jsStr e.nextPublicWordpressUrl = "" → jsStr e.nextPublicWordpressApiUrl ≠ "" →
        wordpressApiUrlWp e = jsStr e.nextPublicWordpressApiUrl
      ∧ initApiModule e = ModuleInit.ok (jsStr e.nextPublicWordpressApiUrl ++ "/wp-json/wp/v2"))
  ∧ (jsStr e.nextPublicWordpressUrl = "" → jsStr e.nextPublicWordpressApiUrl = "" →
        wordpressApiUrlWp e = ""
      ∧ (e.nodeEnv = "production" → initApiModule e = ModuleInit.ok "")
      ∧ (e.nodeEnv ≠ "production" → initApiModule e = ModuleInit.thrown wpUrlMissingMsg)) := by
  refine ⟨?_, ?_, ?_⟩
  · intro h1
    constructor
    · simp [wordpressApiUrlWp, jsOrStr, h1]
    · simp [initApiModule, wpBaseUrl, jsOrStr, h1]
  · intro h1 h2
    constructor
    · simp [wordpressApiUrlWp, jsOrStr, h1, h2]
    · simp [initApiModule, wpBaseUrl, jsOrStr, h1, h2]
  · intro h1 h2
    refine ⟨by simp [wordpressApiUrlWp, jsOrStr, h1, h2], ?_, ?_⟩
    · intro hprod
      simp [initApiModule, wpBaseUrl, jsOrStr, h1, h2, hprod]
    · intro hprod
      simp [initApiModule, wpBaseUrl, jsOrStr, h1, h2, hprod]

/-- Witness for the amended C3 at a concrete production environment
with only the legacy variable set. -/
theorem c3_config_resolution_amended_witness :
    wordpressApiUrlWp
        { nextPublicWordpressUrl := none, nextPublicWordpressApiUrl := some "https://legacy.example",
          nodeEnv := "production" }
      = jsStr (some "https://legacy.example") :=
  ((c3_config_resolution_amended
      { nextPublicWordpressUrl := none, nextPublicWordpressApiUrl := some "https://legacy.example",
        nodeEnv := "production" }).2.1 rfl (by decide)).1

/-- A concrete booking-form state used to refute claim C1: check-in day
0, check-out day 5, defaults elsewhere. -/
def c1ExampleState : BookingFormState :=
  { checkIn := some 0, checkOut := some 5, roomType := "select", adults := 2, children := 0,
    errors := { checkIn := none, checkOut := none, roomType := none, adults := none } }

/-- Counterexample to claim C1: picking check-in equal to the current
check-out (day 5) leaves check-out at day 5 — not strictly after
check-in — without auto-correcting it to check-in plus one day. The
correction only fires when check-out is strictly before check-in. -/
theorem c1_counterexample :
    (pickCheckIn c1ExampleState 5).checkIn = some 5
  ∧ (pickCheckIn c1ExampleState 5).checkOut = some 5
  ∧ ¬ (5 : Int) < (5 : Int)
  ∧ (pickCheckIn c1ExampleState 5).checkOut ≠ some ((5 : Int) + 1) := by
  decide

/-- Claim C1 as amended: a check-in pick auto-corrects check-out to
check-in plus one day exactly when it leaves check-out strictly before
check-in; a check-out equal to the new check-in is left unchanged. The
invariant the form maintains and validates is check-out at or after
check-in, not strictly after: after any check-in pick the dates satisfy
check-in less than or equal to check-out, and `validateForm` raises no
check-out error on equal dates. -/
theorem c1_checkout_auto_correct_amended (s : BookingFormState) (d co : Int)
    (hco : s.checkOut = some co) :
    (co < d → (pickCheckIn s d).checkOut = some (d + 1))
  ∧ (d ≤ co → (pickCheckIn s d).checkOut = some co)
  ∧ (∀ ci2 co2, (pickCheckIn s d).checkIn = some ci2 →
      (pickCheckIn s d).checkOut = some co2 → ci2 ≤ co2)
  ∧ (s.checkIn = some co → (validateFormErrors s).checkOut = none) := by
  refine ⟨?_, ?_, ?_, ?_⟩
  · intro hlt
    simp [pickCheckIn, checkOutAutoCorrect, hco, isBefore, addDays, hlt]
  · intro hle
    simp [pickCheckIn, checkOutAutoCorrect, hco, isBefore, addDays, not_lt.mpr hle]
  · intro ci2 co2 hci2 hco2
    by_cases hlt : co < d
    · simp [pickCheckIn, checkOutAutoCorrect, hco, isBefore, addDays, hlt] at hci2 hco2
      omega
    · simp [pickCheckIn, checkOutAutoCorrect, hco, isBefore, addDays, hlt] at hci2 hco2
      omega
  · intro hci
    simp [validateFormErrors, hci, hco, isBefore]

/-- Witness for the amended C1: at the concrete state with check-out
day 5, picking check-in day 7 forces check-out to day 8, while picking
day 5 leaves check-out at day 5. -/
theorem c1_checkout_auto_correct_amended_witness :
    (pickCheckIn c1ExampleState 7).checkOut = some (7 + 1)
  ∧ (pickCheckIn c1ExampleState 5).checkOut = some 5 :=
  ⟨(c1_checkout_auto_correct_amended c1ExampleState 7 5 rfl).1 (by decide),
   (c1_checkout_auto_correct_amended c1ExampleState 5 5 rfl).2.1 (by decide)⟩

/-- Claim C8: display-name resolution follows the fallback order title,
then the dedicated `featured_title` field, then the slug title-cased
(split on hyphen, capitalize each segment, join with spaces), then the
synthetic room label, first non-empty winning; a record lacking every
source resolves to the synthetic label, and a record with a non-empty
slug never resolves to the empty string. -/
theorem c8_display_name (room : WPPost) :
    (∀ t, room.title = some t → t.rendered ≠ "" → roomName room = t.rendered)
  ∧ (jsStr (room.title.map RenderedText.rendered) = "" →
      ∀ f, room.featured_title = some f → f ≠ "" → roomName room = f)
  ∧ (jsStr (room.title.map RenderedText.rendered) = "" →
      jsStr room.featured_title = "" → room.slug ≠ "" →
      roomName room = titleCaseSlug room.slug)
  ∧ (jsStr (room.title.map RenderedText.rendered) = "" →
      jsStr room.featured_title = "" → room.slug = "" →
      roomName room = "Room " ++ toString room.id)
  ∧ (room.slug ≠ "" → roomName room ≠ "") := by
  refine ⟨?_, ?_, ?_, ?_, ?_⟩
  · intro t ht hne
    unfold roomName
    rw [ht]
    simp [jsStr, jsOrStr, hne]
  · intro h1 f hf hne
    unfold roomName
    rw [h1, hf]
    simp [jsStr, jsOrStr, hne]
  · intro h1 h2 hs
    have htc := titleCaseSlug_ne_empty room.slug hs
    unfold roomName
    rw [h1, h2]
    simp [jsOrStr, hs, htc]
  · intro h1 h2 hs
    unfold roomName
    rw [h1, h2, hs]
    simp [jsOrStr]
  · intro _
    unfold roomName
    exact jsOrStr_ne_empty _ _
      (jsOrStr_ne_empty _ _ (jsOrStr_ne_empty _ _ (roomLabel_ne_empty room.id)))

/-- Witness for C8: a concrete record lacking every display-name source
resolves to the synthetic label, and one with only a slug resolves to
the title-cased slug. -/
theorem c8_display_name_witness :
    roomName
        { id := 7, slug := "", title := none, featured_title := none, room_rates := none,
          price_per_night := none }
      = "Room " ++ toString 7
  ∧ roomName
        { id := 7, slug := "deluxe-room", title := none, featured_title := none,
          room_rates := none, price_per_night := none }
      = titleCaseSlug "deluxe-room" :=
  ⟨(c8_display_name
      { id := 7, slug := "", title := none, featured_title := none, room_rates := none,
        price_per_night := none }).2.2.2.1 rfl rfl rfl,
   (c8_display_name
      { id := 7, slug := "deluxe-room", title := none, featured_title := none,
        room_rates := none, price_per_night := none }).2.2.1 rfl rfl (by decide)⟩

/-- When the size block returns a URL, the four size candidates resolve
to it ahead of any later candidate. -/
theorem firstAvailable_sizes_hit (sz : MediaSizes) (rest : List (Option String))
    (d u : String) (h : getImageUrlSizes sz = some u) :
    firstAvailable
        (sizeUrl sz.large :: sizeUrl sz.medium_large :: sizeUrl sz.medium ::
          sizeUrl sz.thumbnail :: rest) d = u := by
  unfold getImageUrlSizes at h
  cases h1 : sizeUrl sz.large with
  | some u1 => rw [h1] at h; simp at h; simp [firstAvailable, h1, h]
  | none =>
    rw [h1] at h
    simp only [] at h
    cases h2 : sizeUrl sz.medium_large with
    | some u2 => rw [h2] at h; simp at h; simp [firstAvailable, h1, h2, h]
    | none =>
      rw [h2] at h
      simp only [] at h
      cases h3 : sizeUrl sz.medium with
      | some u3 => rw [h3] at h; simp at h; simp [firstAvailable, h1, h2, h3, h]
      | none =>
        rw [h3] at h
        simp at h
        simp [firstAvailable, h1, h2, h3, h]

/-- When the size block returns nothing, the four size candidates are
all unavailable and resolution moves past them. -/
theorem firstAvailable_sizes_skip (sz : MediaSizes) (rest : List (Option String))
    (d : String) (h : getImageUrlSizes sz = none) :
    firstAvailable
        (sizeUrl sz.large :: sizeUrl sz.medium_large :: sizeUrl sz.medium ::
          sizeUrl sz.thumbnail :: rest) d = firstAvailable rest d := by
  unfold getImageUrlSizes at h
  cases h1 : sizeUrl sz.large with
  | some u1 => rw [h1] at h; simp at h
  | none =>
    rw [h1] at h
    simp only [] at h
    cases h2 : sizeUrl sz.medium_large with
    | some u2 => rw [h2] at h; simp at h
    | none =>
      rw [h2] at h
      simp only [] at h
      cases h3 : sizeUrl sz.medium with
      | some u3 => rw [h3] at h; simp at h
      | none =>
        rw [h3] at h
        simp at h
        simp [firstAvailable, h1, h2, h3, h]

/-- Claim C7: image URL resolution equals the first available candidate
in the order better-featured-image, embedded large, medium-large,
medium, thumbnail, raw embedded source URL, with the local default
placeholder closing the list; and it is total: a record with no
featured image anywhere resolves to the local default path, never an
absent value. -/
theorem c7_image_url_total (room : Room) :
    getImageUrl room = firstAvailable (imageCandidates room) defaultImage
  ∧ (room.better_featured_image = none →
      room.embedded_featuredmedia.bind List.head? = none →
      getImageUrl room = defaultImage) := by
  constructor
  · unfold getImageUrl imageCandidates
    cases hbc : room.better_featured_image.bind
        (fun b => if b.source_url = "" then none else some b.source_url) with
    | some u => simp [firstAvailable, hbc]
    | none =>
      simp only [hbc, firstAvailable]
      unfold getImageUrlEmbedded
      cases hfm : room.embedded_featuredmedia.bind List.head? with
      | none => simp [firstAvailable, hfm]
      | some fm =>
        simp only [hfm, Option.some_bind]
        cases hsz : fm.media_details.bind MediaDetails.sizes with
        | none =>
          simp only [hsz, Option.none_bind]
          by_cases hraw : fm.source_url = "" <;> simp [firstAvailable, hraw]
        | some sz =>
          simp only [hsz, Option.some_bind]
          cases hg : getImageUrlSizes sz with
          | some u =>
            simp only [hg]
            exact (firstAvailable_sizes_hit sz
              [if fm.source_url = "" then none else some fm.source_url]
              defaultImage u hg).symm
          | none =>
            simp only [hg]
            rw [firstAvailable_sizes_skip sz
              [if fm.source_url = "" then none else some fm.source_url]
              defaultImage hg]
            by_cases hraw : fm.source_url = "" <;> simp [firstAvailable, hraw]
  · intro h1 h2
    unfold getImageUrl getImageUrlEmbedded
    rw [h1, h2]
    rfl

/-- A concrete room with no featured image anywhere. -/
def c7RoomBare : Room :=
  { id := 1, better_featured_image := none, embedded_featuredmedia := none }

/-- A concrete room whose better-featured-image URL is empty and whose
embedded media offers only the medium-large variant besides its raw
URL. -/
def c7RoomML : Room :=
  { id := 2, better_featured_image := some ⟨""⟩,
    embedded_featuredmedia := some [⟨"raw", some ⟨some ⟨none, some ⟨"ml"⟩, none, none⟩⟩⟩] }

/-- Witness for C7: the bare room resolves to the local default path,
and the medium-large room resolves exactly as the candidate order
prescribes. -/
theorem c7_image_url_total_witness :
    getImageUrl c7RoomBare = defaultImage
  ∧ getImageUrl c7RoomML = firstAvailable (imageCandidates c7RoomML) defaultImage :=
  ⟨(c7_image_url_total c7RoomBare).2 rfl rfl, (c7_image_url_total c7RoomML).1⟩

/-- Replacing every entry of one key leaves lookups of other keys
unchanged. -/
theorem searchParamsGet_map_replace_ne (ps : List (String × String)) (k v q : String)
    (h : q ≠ k) :
    searchParamsGet (ps.map (fun p => if p.1 == k then (k, v) else p)) q
      = searchParamsGet ps q := by
  induction ps with
  | nil => rfl
  | cons p rest ih =>
    simp only [List.map_cons]
    by_cases hp : p.1 = k
    · have hkq : ((k, v).1 == q) = false := by simp [Ne.symm h]
      have hpq : (p.1 == q) = false := by simp [hp, Ne.symm h]
      simp only [searchParamsGet] at ih ⊢
      rw [if_pos (by simp [hp]), List.find?_cons_of_neg _ (by simp [hkq]),
        List.find?_cons_of_neg _ (by simp [hpq])]
      exact ih
    · simp only [searchParamsGet] at ih ⊢
      rw [if_neg (by simp [hp])]
      by_cases hpq : p.1 = q
      · rw [List.find?_cons_of_pos _ (by simp [hpq]), List.find?_cons_of_pos _ (by simp [hpq])]
      · rw [List.find?_cons_of_neg _ (by simp [hpq]), List.find?_cons_of_neg _ (by simp [hpq])]
        exact ih

/-- Replacing every entry of a present key makes its lookup return the
new value. -/
theorem searchParamsGet_map_replace_self (ps : List (String × String)) (k v : String)
    (h : ps.any (fun p => p.1 == k) = true) :
    searchParamsGet (ps.map (fun p => if p.1 == k then (k, v) else p)) k = some v := by
  induction ps with
  | nil => simp at h
  | cons p rest ih =>
    simp only [List.map_cons]
    by_cases hp : p.1 = k
    · simp only [searchParamsGet]
      rw [if_pos (by simp [hp]), List.find?_cons_of_pos _ (by simp)]
      rfl
    · simp only [List.any_cons, Bool.or_eq_true] at h
      rcases h with h | h
      · exact absurd (by simpa using h) hp
      · simp only [searchParamsGet] at ih ⊢
        rw [if_neg (by simp [hp]), List.find?_cons_of_neg _ (by simp [hp])]
        exact ih h

/-- Appending a single entry affects a lookup only when the looked-up
key is otherwise absent. -/
theorem searchParamsGet_append_one (ps : List (String × String)) (k v q : String) :
    searchParamsGet (ps ++ [(k, v)]) q
      = (searchParamsGet ps q).or (if q = k then some v else none) := by
  induction ps with
  | nil =>
    simp only [List.nil_append]
    by_cases hq : q = k
    · subst hq
      simp [searchParamsGet]
    · unfold searchParamsGet
      rw [List.find?_cons_of_neg _ (by simp [Ne.symm hq])]
      simp [hq]
  | cons p rest ih =>
    simp only [List.cons_append, searchParamsGet] at ih ⊢
    by_cases hpq : p.1 = q
    · rw [List.find?_cons_of_pos _ (by simp [hpq]), List.find?_cons_of_pos _ (by simp [hpq])]
      simp
    · rw [List.find?_cons_of_neg _ (by simp [hpq]), List.find?_cons_of_neg _ (by simp [hpq])]
      exact ih

/-- `addParam` updates exactly the written key in the object. -/
theorem searchParamsGet_addParam (ps : List (String × String)) (k v q : String) :
    searchParamsGet (addParam ps k v) q
      = if q = k then some v else searchParamsGet ps q := by
  unfold addParam
  by_cases hany : ps.any (fun p => p.1 == k) = true
  · rw [if_pos hany]
    by_cases hq : q = k
    · subst hq
      rw [if_pos rfl]
      exact searchParamsGet_map_replace_self ps q v hany
    · rw [if_neg hq]
      exact searchParamsGet_map_replace_ne ps k v q hq
  · rw [if_neg hany, searchParamsGet_append_one]
    by_cases hq : q = k
    · subst hq
      have hnone : searchParamsGet ps q = none := by
        unfold searchParamsGet
        rw [List.find?_eq_none.mpr]
        · rfl
        · intro x hx
          have := (List.any_eq_false.mp (Bool.eq_false_iff.mpr hany)) x hx
          simpa using this
      simp [hnone]
    · simp [hq, Option.or_none]

/-- Unfolding equation of `lastVal` on a cons cell. -/
theorem lastVal_cons (k v q : String) (rest : List (String × String)) :
    lastVal ((k, v) :: rest) q
      = match lastVal rest q with
        | some w => some w
        | none => if k = q then some v else none := rfl

/-- The lookup a run of the parameter filter loop produces: an
allow-listed non-`path` name resolves to the last inbound value of that
name, falling back to the accumulator; any other name is untouched. -/
theorem filterParamsAux_lookup (rest : List (String × String)) :
    ∀ acc q, searchParamsGet (filterParamsAux acc rest) q
      = if q ≠ "path" ∧ allowedParams.contains q then
          (lastVal rest q).or (searchParamsGet acc q)
        else searchParamsGet acc q := by
  induction rest with
  | nil =>
    intro acc q
    unfold filterParamsAux lastVal
    split <;> simp
  | cons kv rest ih =>
    intro acc q
    obtain ⟨k, v⟩ := kv
    unfold filterParamsAux
    by_cases hk : k ≠ "path" ∧ allowedParams.contains k
    · rw [if_pos hk, ih]
      by_cases hq : q ≠ "path" ∧ allowedParams.contains q
      · rw [if_pos hq, if_pos hq, searchParamsGet_addParam]
        by_cases hqk : q = k
        · subst hqk
          rw [if_pos rfl, lastVal_cons]
          cases h : lastVal rest q <;> simp [h]
        · rw [if_neg hqk, lastVal_cons]
          have hkq : ¬ k = q := fun hh => hqk hh.symm
          cases h : lastVal rest q <;> simp [h, hkq]
      · rw [if_neg hq, if_neg hq, searchParamsGet_addParam]
        have hqk : q ≠ k := by
          intro hh
          subst hh
          exact hq hk
        rw [if_neg hqk]
    · rw [if_neg hk, ih]
      by_cases hq : q ≠ "path" ∧ allowedParams.contains q
      · rw [if_pos hq, if_pos hq, lastVal_cons]
        have hqk : q ≠ k := by
          intro hh
          subst hh
          exact hk hq
        have hkq : ¬ k = q := fun hh => hqk hh.symm
        cases h : lastVal rest q <;> simp [h, hkq]
      · rw [if_neg hq, if_neg hq]

/-- When the path value is non-empty, its first non-empty segment is
allow-listed and the base URL resolves, the proxy forwards the request
with the verbatim path and the filtered parameters. -/
theorem proxyGET_forward_eq (e : Env) (req : List (String × String)) (p s0 : String)
    (h1 : searchParamsGet req "path" = some p) (h2 : p ≠ "")
    (h3 : ((jsSplit p '/').filter (fun s => s != "")).head? = some s0)
    (h4 : ALLOWED_PATHS.contains s0 = true) (h5 : wpBaseUrl e ≠ "") :
    proxyGET e req
      = ProxyResult.forward
          { base := wpBaseUrl e, path := p, params := filterParams req } := by
  unfold proxyGET
  simp only [h1]
  rw [if_neg h2]
  simp only [h3, h4, if_true]
  rw [if_neg h5]

/-- Claim C4: the parameter filter of the proxy gate drops every query
parameter whose name is outside the fixed allowed set from the
forwarded request, forwards every allow-listed parameter present
inbound with its (last) inbound value, and the parameters of any
forwarded upstream request are exactly the filtered ones. -/
theorem c4_param_allowlist (e : Env) (req : List (String × String)) :
    (∀ q, allowedParams.contains q = false → searchParamsGet (filterParams req) q = none)
  ∧ (∀ q, allowedParams.contains q = true →
      searchParamsGet (filterParams req) q = lastVal req q)
  ∧ (∀ f, proxyGET e req = ProxyResult.forward f → f.params = filterParams req) := by
  refine ⟨?_, ?_, ?_⟩
  · intro q hq
    unfold filterParams
    rw [filterParamsAux_lookup, if_neg]
    · rfl
    · rintro ⟨-, hc⟩
      rw [hq] at hc
      exact Bool.false_ne_true hc
  · intro q hq
    have hpath : q ≠ "path" := by
      intro hh
      subst hh
      have hfalse : allowedParams.contains "path" = false := by decide
      rw [hfalse] at hq
      exact Bool.false_ne_true hq
    unfold filterParams
    rw [filterParamsAux_lookup, if_pos ⟨hpath, hq⟩]
    cases h : lastVal req q <;> simp [h, searchParamsGet]
  · intro f hf
    unfold proxyGET at hf
    cases hp : searchParamsGet req "path" with
    | none =>
      rw [hp] at hf
      simp at hf
    | some path =>
      simp only [hp] at hf
      by_cases hpe : path = ""
      · rw [if_pos hpe] at hf
        simp at hf
      · rw [if_neg hpe] at hf
        cases hh : ((jsSplit path '/').filter (fun s => s != "")).head? with
        | none =>
          simp only [hh] at hf
          simp at hf
        | some bp =>
          simp only [hh] at hf
          by_cases hbp : ALLOWED_PATHS.contains bp = true
          · simp only [hbp, if_true] at hf
            by_cases hu : wpBaseUrl e = ""
            · rw [if_pos hu] at hf
              simp at hf
            · rw [if_neg hu] at hf
              cases hf
              rfl
          · simp only [hbp, if_false] at hf
            simp at hf

/-- The concrete production environment used by the proxy witnesses. -/
def prodEnv : Env :=
  { nextPublicWordpressUrl := some "https://wp.example.com",
    nextPublicWordpressApiUrl := none, nodeEnv := "production" }

/-- A concrete inbound proxy request carrying an allow-listed parameter
and a non-allow-listed one. -/
def c4ExampleReq : List (String × String) :=
  [("path", "posts"), ("callback", "x"), ("per_page", "5")]

/-- Witness for C4: `callback=x` is dropped, `per_page=5` survives with
its value, and the concrete forwarded request carries exactly the
filtered parameters. -/
theorem c4_param_allowlist_witness :
    searchParamsGet (filterParams c4ExampleReq) "callback" = none
  ∧ searchParamsGet (filterParams c4ExampleReq) "per_page" = lastVal c4ExampleReq "per_page"
  ∧ (ForwardRequest.mk "https://wp.example.com" "posts" [("per_page", "5")]).params
      = filterParams c4ExampleReq :=
  ⟨(c4_param_allowlist prodEnv c4ExampleReq).1 "callback" (by decide),
   (c4_param_allowlist prodEnv c4ExampleReq).2.1 "per_page" (by decide),
   (c4_param_allowlist prodEnv c4ExampleReq).2.2
     (ForwardRequest.mk "https://wp.example.com" "posts" [("per_page", "5")]) (by decide)⟩

/-- Counterexample to claim C5: the request whose path parameter is
present but empty has a path with no non-empty segment, so per the
claim it should receive the invalid-path error; the code instead treats
the empty value as falsy and answers with the missing-parameter error. -/
theorem c5_counterexample :
    searchParamsGet [("path", "")] "path" = some ""
  ∧ ((jsSplit "" '/').filter (fun s => s != "")).head? = none
  ∧ proxyGET prodEnv [("path", "")] = ProxyResult.clientError 400 "Missing path parameter"
  ∧ "Missing path parameter" ≠ "Invalid path parameter" := by
  decide

/-- Claim C5 as amended: a request whose path parameter is absent or
present but empty receives status 400 with the missing-parameter error
(the code treats an empty value as absent); a request whose non-empty
path has no non-empty segment, or whose first non-empty segment is not
in the fixed allow-list, receives status 400 with the invalid-path
error; no such rejected request is forwarded upstream. -/
theorem c5_path_validation_amended (e : Env) (req : List (String × String)) :
    (searchParamsGet req "path" = none →
      proxyGET e req = ProxyResult.clientError 400 "Missing path parameter")
  ∧ (searchParamsGet req "path" = some "" →
      proxyGET e req = ProxyResult.clientError 400 "Missing path parameter")
  ∧ (∀ p, searchParamsGet req "path" = some p → p ≠ "" →
      ((jsSplit p '/').filter (fun s => s != "")).head? = none →
      proxyGET e req = ProxyResult.clientError 400 "Invalid path parameter")
  ∧ (∀ p s0, searchParamsGet req "path" = some p → p ≠ "" →
      ((jsSplit p '/').filter (fun s => s != "")).head? = some s0 →
      ALLOWED_PATHS.contains s0 = false →
      proxyGET e req = ProxyResult.clientError 400 "Invalid path parameter")
  ∧ (∀ st er f, proxyGET e req = ProxyResult.clientError st er →
      proxyGET e req ≠ ProxyResult.forward f) := by
  refine ⟨?_, ?_, ?_, ?_, ?_⟩
  · intro h
    unfold proxyGET
    simp only [h]
  · intro h
    unfold proxyGET
    simp only [h, if_pos rfl]
    simp
  · intro p h1 h2 h3
    unfold proxyGET
    simp only [h1]
    rw [if_neg h2]
    simp only [h3]
  · intro p s0 h1 h2 h3 h4
    unfold proxyGET
    simp only [h1]
    rw [if_neg h2]
    simp only [h3, h4]
    simp
  · intro st er f he hf
    rw [he] at hf
    exact ProxyResult.noConfusion hf

/-- Witness for the amended C5: a concrete unknown resource type is
rejected as invalid, and a concrete request without any path parameter
is rejected as missing. -/
theorem c5_path_validation_amended_witness :
    proxyGET prodEnv [("path", "unknownType")]
      = ProxyResult.clientError 400 "Invalid path parameter"
  ∧ proxyGET prodEnv [("per_page", "5")]
      = ProxyResult.clientError 400 "Missing path parameter" :=
  ⟨(c5_path_validation_amended prodEnv [("path", "unknownType")]).2.2.2.1
      "unknownType" "unknownType" (by decide) (by decide) (by decide) (by decide),
   (c5_path_validation_amended prodEnv [("per_page", "5")]).1 (by decide)⟩

/-- Claim C10: the proxy gate validates only the first non-empty
segment of the path; every multi-segment path whose first segment is
allow-listed is spliced verbatim into the upstream URL and forwarded,
with no validation of the remaining segments. -/
theorem c10_first_segment_only (e : Env) (req : List (String × String)) (p s0 : String)
    (h1 : searchParamsGet req "path" = some p) (h2 : p ≠ "")
    (h3 : ((jsSplit p '/').filter (fun s => s != "")).head? = some s0)
    (h4 : ALLOWED_PATHS.contains s0 = true) (h5 : wpBaseUrl e ≠ "") :
    proxyGET e req
      = ProxyResult.forward
          { base := wpBaseUrl e, path := p, params := filterParams req } :=
  proxyGET_forward_eq e req p s0 h1 h2 h3 h4 h5

/-- Witness for C10: the concrete path `posts/secret`, whose second
segment is not in the allow-list, is forwarded verbatim because its
first segment is `posts`. -/
theorem c10_first_segment_only_witness :
    proxyGET prodEnv [("path", "posts/secret"), ("callback", "x")]
      = ProxyResult.forward
          { base := wpBaseUrl prodEnv, path := "posts/secret",
            params := filterParams [("path", "posts/secret"), ("callback", "x")] } :=
  c10_first_segment_only prodEnv [("path", "posts/secret"), ("callback", "x")]
    "posts/secret" "posts" (by decide) (by decide) (by decide) (by decide) (by decide)

end RabaulHotel
